import Mathlib

/-!
Shallow embedding of the `workos-go` audit-log client (package `auditlog`)
and proofs of the specification claims about it.

Source files embedded:
* `src/pkg/auditlog/auditlog.go` — `Metadata.merge`, `Metadata.validate`,
  `defaultTime`, `defaultIdempotencyKey`, the error values.
* `src/auditlog/api_test.go` — the test for `ListRequestParams.GetLimit`
  (the body of `GetLimit` itself is not under `src/`, so it is modelled
  from the spec).

Go maps are modelled as either the nil map or a list of key/value entries
with ordered iteration standing in for Go's (unspecified) iteration order.
Writing to a nil map panics in Go; operations that can panic return
`Option`, with `none` for the panic.
-/

set_option autoImplicit false
set_option maxRecDepth 10000

namespace Auditlog

universe u

variable {α : Type u}

/-- Entries of a Go `map[string]T`: an association list of key/value pairs. -/
abbrev Entries (α : Type u) : Type u := List (String × α)

/-- Go map read `m[k]`: the value at the first matching key, if any. -/
def Entries.lookup : Entries α → String → Option α
  | [], _ => none
  | (k, v) :: rest, key => if k = key then some v else Entries.lookup rest key

/-- A Go `map[string]T` value: either the nil map or a (possibly empty) map
with its entries.  Reading from the nil map yields nothing; writing to it
panics. -/
inductive GoMap (α : Type u) : Type u where
  | nil : GoMap α
  | mk  : Entries α → GoMap α
deriving DecidableEq

/-- The entries a `range` loop iterates over (nil map: no iterations). -/
def GoMap.entries : GoMap α → Entries α
  | .nil => []
  | .mk l => l

/-- Go map read `m[k]` (comma-ok form): reading the nil map is allowed and
finds nothing. -/
def GoMap.lookup (m : GoMap α) (key : String) : Option α :=
  Entries.lookup m.entries key

/-- The loop body of `Metadata.merge`, iterating over the remaining entries
of `other` with the pair `(m, other)` as the mutable state:

```go
for k, v := range other {
    if _, ok := m[k]; !ok {
        m[k] = v
    }
}
```

`m[k] = v` on the nil map is a runtime panic, embedded as `none`. -/
def mergeLoop : GoMap α × GoMap α → Entries α → Option (GoMap α × GoMap α)
  | st, [] => some st
  | (m, o), (k, v) :: rest =>
    if (m.lookup k).isSome then mergeLoop (m, o) rest
    else
      match m with
      | .nil => none
      | .mk l => mergeLoop (.mk (l ++ [(k, v)]), o) rest

/-- `func (m Metadata) merge(other Metadata)`, with the final state of both
maps returned explicitly (`none` = panic). -/
def GoMap.mergeS (m other : GoMap α) : Option (GoMap α × GoMap α) :=
  mergeLoop (m, other) other.entries

/-- The merged map produced by `Metadata.merge` (`none` = panic). -/
def GoMap.merge (m other : GoMap α) : Option (GoMap α) :=
  (m.mergeS other).map Prod.fst

/-- The errors `Metadata.validate` can return.  `tooMuchMetadataKeys` is the
package-level `errTooMuchMetadataKeys`; `metadataKeyTooLong` carries the
offending key and its length, the two values interpolated by
`fmt.Errorf("metadata key %q exceed 40 characters: %d", k, l)`. -/
inductive AuditlogError : Type where
  | tooMuchMetadataKeys : AuditlogError
  | metadataKeyTooLong : String → Nat → AuditlogError
deriving DecidableEq

/-- The error message, as rendered by `errors.New` / `fmt.Errorf` (for keys
that `%q` quotes without inserting escape sequences). -/
def AuditlogError.message : AuditlogError → String
  | .tooMuchMetadataKeys => "too much metadata key"
  | .metadataKeyTooLong k l =>
      "metadata key \"" ++ k ++ "\" exceed 40 characters: " ++ toString l

/-- `func (m Metadata) validate() error`.  Go's `len` on a string is its
UTF-8 byte count, embedded as `String.utf8ByteSize`:

```go
if len(m) > 50 { return errTooMuchMetadataKeys }
for k := range m {
    if l := len(k); l > 40 {
        return fmt.Errorf("metadata key %q exceed 40 characters: %d", k, l)
    }
}
return nil
``` -/
def GoMap.validate (m : GoMap α) : Except AuditlogError Unit :=
  if m.entries.length > 50 then .error .tooMuchMetadataKeys
  else
    match m.entries.find? (fun kv => 40 < kv.1.utf8ByteSize) with
    | some kv => .error (.metadataKeyTooLong kv.1 kv.1.utf8ByteSize)
    | none => .ok ()

/-- Modelled from the spec: `ListRequestParams` of the `auditlog` package.
Its definition is not under `src/`; only its test
(`TestEventsRequestParamsLimit` in `src/auditlog/api_test.go`) is. -/
structure ListRequestParams : Type where
  Limit : Int
deriving DecidableEq

/-- Modelled from the spec: `func (p ListRequestParams) GetLimit() int` is
not under `src/` (only its test is).  The spec's exact table: a requested
limit `<= 0` yields the default page size 10, a limit `> 1000` yields the
maximum page size 1000, and any other limit is returned unchanged. -/
def ListRequestParams.GetLimit (p : ListRequestParams) : Int :=
  if p.Limit ≤ 0 then 10
  else if p.Limit > 1000 then 1000
  else p.Limit

/-- A Go `time.Time` value: the instant (wall-clock reading and monotonic
extension) together with the location pointer (`none` is the nil location
of the zero `time.Time`). -/
structure GoTime : Type where
  wall : Nat
  ext  : Int
  loc  : Option String
deriving DecidableEq

/-- The zero `time.Time{}`. -/
def GoTime.zero : GoTime := ⟨0, 0, none⟩

/-- `func (t Time) UTC() Time`: same instant, location set to UTC. -/
def GoTime.utc (t : GoTime) : GoTime := { t with loc := some "UTC" }

/-- `func defaultTime(t time.Time) time.Time`, with `time.Now()` passed in
explicitly as `now`:

```go
if t == (time.Time{}) {
    t = time.Now().UTC()
}
return t
``` -/
def defaultTime (now : GoTime) (t : GoTime) : GoTime :=
  if t = GoTime.zero then now.utc else t

/-- Lowercase hexadecimal digit for `n < 16`, as produced by Go's
`encoding/hex`. -/
def hexChar (n : Nat) : Char :=
  if n < 10 then Char.ofNat (48 + n) else Char.ofNat (87 + n)

/-- `hex.Encode` of one byte: two lowercase hex digits, high nibble first. -/
def byteHex (b : Nat) : List Char := [hexChar (b / 16), hexChar (b % 16)]

/-- `hex.Encode` of a byte slice. -/
def hexList (bs : List Nat) : List Char := bs.flatMap byteHex

/-- Modelled from the spec: the random-UUID constructor of the external
`github.com/google/uuid` dependency sets the version-4 and RFC-4122-variant
bits of the 16 random bytes (`uuid[6] = (uuid[6] & 0x0f) | 0x40`,
`uuid[8] = (uuid[8] & 0x3f) | 0x80`). -/
def uuidV4Bytes (bs : List Nat) : List Nat :=
  (bs.set 6 ((bs.getD 6 0 &&& 0x0f) ||| 0x40)).set 8
    ((bs.getD 8 0 &&& 0x3f) ||| 0x80)

/-- Modelled from the spec: the standard textual representation of a UUID
(`UUID.String()` of `github.com/google/uuid`): `8-4-4-4-12` lowercase hex
groups separated by dashes. -/
def uuidChars (bs : List Nat) : List Char :=
  hexList (bs.take 4) ++ ['-'] ++ hexList ((bs.drop 4).take 2) ++ ['-'] ++
    hexList ((bs.drop 6).take 2) ++ ['-'] ++ hexList ((bs.drop 8).take 2) ++
    ['-'] ++ hexList (bs.drop 10)

/-- Modelled from the spec: `uuid.New().String()` applied to the 16 random
bytes `bs` drawn by the generator. -/
def uuidString (bs : List Nat) : String := ⟨uuidChars (uuidV4Bytes bs)⟩

/-- `func defaultIdempotencyKey(key string) string`, with the 16 random
bytes consumed by `uuid.New()` passed in explicitly:

```go
if key == "" {
    return uuid.New().String()
}
return key
``` -/
def defaultIdempotencyKey (randBytes : List Nat) (key : String) : String :=
  if key = "" then uuidString randBytes else key

/-- Is `c` a lowercase hexadecimal digit? -/
def isHexChar (c : Char) : Bool :=
  (48 ≤ c.toNat && c.toNat ≤ 57) || (97 ≤ c.toNat && c.toNat ≤ 102)

/-- Character shape of a version-4, RFC-4122-variant UUID in its standard
textual representation: exactly 36 characters in five dash-separated groups
of 8, 4, 4, 4 and 12 lowercase hex digits, with version nibble `4` opening
the third group and a variant nibble in `8/9/a/b` opening the fourth. -/
def isUUIDv4Chars : List Char → Bool
  | a0 :: a1 :: a2 :: a3 :: a4 :: a5 :: a6 :: a7 :: d0 ::
    a8 :: a9 :: a10 :: a11 :: d1 ::
    a12 :: a13 :: a14 :: a15 :: d2 ::
    a16 :: a17 :: a18 :: a19 :: d3 ::
    a20 :: a21 :: a22 :: a23 :: a24 :: a25 :: a26 :: a27 :: a28 :: a29 ::
    a30 :: a31 :: [] =>
      d0 == '-' && d1 == '-' && d2 == '-' && d3 == '-' &&
      isHexChar a0 && isHexChar a1 && isHexChar a2 && isHexChar a3 &&
      isHexChar a4 && isHexChar a5 && isHexChar a6 && isHexChar a7 &&
      isHexChar a8 && isHexChar a9 && isHexChar a10 && isHexChar a11 &&
      isHexChar a12 && isHexChar a13 && isHexChar a14 && isHexChar a15 &&
      isHexChar a16 && isHexChar a17 && isHexChar a18 && isHexChar a19 &&
      isHexChar a20 && isHexChar a21 && isHexChar a22 && isHexChar a23 &&
      isHexChar a24 && isHexChar a25 && isHexChar a26 && isHexChar a27 &&
      isHexChar a28 && isHexChar a29 && isHexChar a30 && isHexChar a31 &&
      a12 == '4' &&
      (a16 == '8' || a16 == '9' || a16 == 'a' || a16 == 'b')
  | _ => false

/-- Is `s` the standard textual representation of a version-4 UUID? -/
def isUUIDv4String (s : String) : Bool := isUUIDv4Chars s.data

/-- `type Event struct` of the `auditlog` package. -/
structure Event (α : Type u) : Type u where
  Action         : String
  ActionType     : String
  ActorName      : String
  ActorID        : String
  Group          : String
  IdempotencyKey : String
  Location       : String
  Metadata       : GoMap α
  OccurredAt     : GoTime
  TargetName     : String
  TargetID       : String
deriving DecidableEq

/-- Modelled from the spec: the event-preparation pipeline
`prepare(event, globalMetadata)` (the body of `Publish` that sequences the
four `src/pkg/auditlog/auditlog.go` steps is not under `src/`): default the
timestamp, default the idempotency key, merge the global metadata into the
event's metadata (event keys win), then validate the merged metadata.
`time.Now()` and the random UUID bytes are passed in explicitly; `none` is
the panic of merging into a nil map. -/
def prepare (now : GoTime) (randBytes : List Nat) (global : GoMap α)
    (e : Event α) : Option (Except AuditlogError (Event α)) :=
  let e1 : Event α :=
    { e with
      OccurredAt := defaultTime now e.OccurredAt
      IdempotencyKey := defaultIdempotencyKey randBytes e.IdempotencyKey }
  (e1.Metadata.merge global).map fun merged =>
    match merged.validate with
    | .error err => .error err
    | .ok _ => .ok { e1 with Metadata := merged }

/-! ### Helper lemmas about entry lookup and the merge loop -/

theorem lookup_append_of_some {l : Entries α} (t : Entries α) {k : String}
    {v : α} (h : Entries.lookup l k = some v) :
    Entries.lookup (l ++ t) k = some v := by
  induction l with
  | nil => simp [Entries.lookup] at h
  | cons kv rest ih =>
    obtain ⟨k1, v1⟩ := kv
    rw [List.cons_append]
    by_cases hk : k1 = k
    · simp_all [Entries.lookup]
    · simp only [Entries.lookup, if_neg hk] at h ⊢
      exact ih h

theorem lookup_append_of_none {l : Entries α} (t : Entries α) {k : String}
    (h : Entries.lookup l k = none) :
    Entries.lookup (l ++ t) k = Entries.lookup t k := by
  induction l with
  | nil => simp
  | cons kv rest ih =>
    obtain ⟨k1, v1⟩ := kv
    rw [List.cons_append]
    by_cases hk : k1 = k
    · simp [Entries.lookup, if_pos hk] at h
    · simp only [Entries.lookup, if_neg hk] at h ⊢
      exact ih h

theorem mergeLoop_snd (rest : Entries α) :
    ∀ st st2 : GoMap α × GoMap α, mergeLoop st rest = some st2 → st2.2 = st.2 := by
  induction rest with
  | nil =>
    intro st st2 h
    simp [mergeLoop] at h
    rw [← h]
  | cons kv rest ih =>
    intro st st2 h
    obtain ⟨m, o⟩ := st
    obtain ⟨k, v⟩ := kv
    cases m with
    | nil =>
      simp [mergeLoop, GoMap.lookup, GoMap.entries, Entries.lookup] at h
    | mk l =>
      simp only [mergeLoop] at h
      split at h
      · exact ih (GoMap.mk l, o) st2 h
      · exact ih (GoMap.mk (l ++ [(k, v)]), o) st2 h

theorem mergeLoop_mk (rest : Entries α) :
    ∀ (l : Entries α) (o : GoMap α), ∃ l2,
      mergeLoop (GoMap.mk l, o) rest = some (GoMap.mk l2, o) := by
  induction rest with
  | nil => intro l o; exact ⟨l, by simp [mergeLoop]⟩
  | cons kv rest ih =>
    intro l o
    obtain ⟨k, v⟩ := kv
    cases heq : Entries.lookup l k with
    | some w =>
      obtain ⟨l2, h2⟩ := ih l o
      exact ⟨l2, by simp [mergeLoop, GoMap.lookup, GoMap.entries, heq, h2]⟩
    | none =>
      obtain ⟨l2, h2⟩ := ih (l ++ [(k, v)]) o
      exact ⟨l2, by simp [mergeLoop, GoMap.lookup, GoMap.entries, heq, h2]⟩

theorem mergeLoop_lookup_some (rest : Entries α) :
    ∀ (l l2 : Entries α) (o o2 : GoMap α) (k : String) (v : α),
      Entries.lookup l k = some v →
      mergeLoop (GoMap.mk l, o) rest = some (GoMap.mk l2, o2) →
      Entries.lookup l2 k = some v := by
  induction rest with
  | nil =>
    intro l l2 o o2 k v hl h
    simp [mergeLoop] at h
    rw [← h.1]
    exact hl
  | cons kv rest ih =>
    intro l l2 o o2 k v hl h
    obtain ⟨k1, v1⟩ := kv
    simp only [mergeLoop, GoMap.lookup, GoMap.entries] at h
    cases heq : Entries.lookup l k1 with
    | some w =>
      rw [heq] at h
      simp at h
      exact ih l l2 o o2 k v hl h
    | none =>
      rw [heq] at h
      simp at h
      exact ih (l ++ [(k1, v1)]) l2 o o2 k v (lookup_append_of_some _ hl) h

theorem mergeLoop_lookup_none (rest : Entries α) :
    ∀ (l l2 : Entries α) (o o2 : GoMap α) (k : String),
      Entries.lookup l k = none →
      mergeLoop (GoMap.mk l, o) rest = some (GoMap.mk l2, o2) →
      Entries.lookup l2 k = Entries.lookup rest k := by
  induction rest with
  | nil =>
    intro l l2 o o2 k hl h
    simp [mergeLoop] at h
    rw [← h.1]
    simpa [Entries.lookup] using hl
  | cons kv rest ih =>
    intro l l2 o o2 k hl h
    obtain ⟨k1, v1⟩ := kv
    simp only [mergeLoop, GoMap.lookup, GoMap.entries] at h
    by_cases hk : k1 = k
    · subst hk
      rw [hl] at h
      simp at h
      have hext : Entries.lookup (l ++ [(k1, v1)]) k1 = some v1 := by
        rw [lookup_append_of_none _ hl]
        simp [Entries.lookup]
      have := mergeLoop_lookup_some rest _ _ _ _ _ _ hext h
      rw [this]
      simp [Entries.lookup]
    · cases heq : Entries.lookup l k1 with
      | some w =>
        rw [heq] at h
        simp at h
        rw [ih l l2 o o2 k hl h]
        simp [Entries.lookup, if_neg hk]
      | none =>
        rw [heq] at h
        simp at h
        have hext : Entries.lookup (l ++ [(k1, v1)]) k = none := by
          rw [lookup_append_of_none _ hl]
          simp [Entries.lookup, if_neg hk]
        rw [ih (l ++ [(k1, v1)]) l2 o o2 k hext h]
        simp [Entries.lookup, if_neg hk]

/-! ### Claim theorems -/

/-- C2: merging global metadata `g` into event metadata `m` never overrides
a key already present in `m` (event values win), and every key of `g` absent
from `m` ends up in the merged map with its value from `g`. -/
theorem merge_precedence (m g r : GoMap α) (h : m.merge g = some r) :
    (∀ k, (m.lookup k).isSome → r.lookup k = m.lookup k) ∧
    (∀ k, m.lookup k = none → r.lookup k = g.lookup k) := by
  unfold GoMap.merge GoMap.mergeS at h
  cases m with
  | nil =>
    cases hg : g.entries with
    | nil =>
      rw [hg] at h
      simp [mergeLoop] at h
      constructor
      · intro k hk
        simp [GoMap.lookup, GoMap.entries, Entries.lookup] at hk
      · intro k _
        rw [← h]
        show Entries.lookup (GoMap.entries GoMap.nil) k
          = Entries.lookup g.entries k
        rw [hg]
        rfl
    | cons kv rest =>
      obtain ⟨k1, v1⟩ := kv
      rw [hg] at h
      simp [mergeLoop, GoMap.lookup, GoMap.entries, Entries.lookup] at h
  | mk l =>
    obtain ⟨l2, h2⟩ := mergeLoop_mk g.entries l g
    rw [h2] at h
    simp at h
    subst h
    constructor
    · intro k hk
      cases hv : Entries.lookup l k with
      | none => simp [GoMap.lookup, GoMap.entries, hv] at hk
      | some v =>
        have := mergeLoop_lookup_some g.entries l l2 g g k v hv h2
        simp [GoMap.lookup, GoMap.entries, hv, this]
    · intro k hk
      simp only [GoMap.lookup, GoMap.entries] at hk ⊢
      exact mergeLoop_lookup_none g.entries l l2 g g k hk h2

/-- C2 witness: event metadata `{"a":1}` merged with global `{"a":2,"b":3}`
keeps `"a" ↦ 1` and gains `"b" ↦ 3`. -/
theorem merge_precedence_witness :
    (GoMap.mk [("a", (1:Int)), ("b", 3)]).lookup "a"
        = (GoMap.mk [("a", (1:Int))]).lookup "a" ∧
      (GoMap.mk [("a", (1:Int)), ("b", 3)]).lookup "b"
        = (GoMap.mk [("a", (2:Int)), ("b", 3)]).lookup "b" := by
  have h := merge_precedence (GoMap.mk [("a", (1:Int))])
    (GoMap.mk [("a", 2), ("b", 3)]) (GoMap.mk [("a", 1), ("b", 3)]) (by rfl)
  exact ⟨h.1 "a" (by decide), h.2 "b" (by decide)⟩

/-- C8: merging a non-empty global map into an absent (nil) event metadata
map panics (`none`); the merge completes exactly when the event map is
non-nil or the global map has no entries. -/
theorem merge_nil_totality (m g : GoMap α) :
    (g.entries ≠ [] → GoMap.merge (GoMap.nil : GoMap α) g = none) ∧
    ((GoMap.merge m g).isSome ↔ (m ≠ GoMap.nil ∨ g.entries = [])) := by
  have hnil : ∀ g' : GoMap α, g'.entries ≠ [] →
      GoMap.merge (GoMap.nil : GoMap α) g' = none := by
    intro g' hne
    cases hg : g'.entries with
    | nil => exact absurd hg hne
    | cons kv rest =>
      obtain ⟨k, v⟩ := kv
      unfold GoMap.merge GoMap.mergeS
      rw [hg]
      simp [mergeLoop, GoMap.lookup, GoMap.entries, Entries.lookup]
  refine ⟨hnil g, ?_, ?_⟩
  · intro hs
    by_contra hc
    push_neg at hc
    obtain ⟨h1, h2⟩ := hc
    subst h1
    rw [hnil g h2] at hs
    simp at hs
  · intro hc
    cases hc with
    | inl hm =>
      cases m with
      | nil => exact absurd rfl hm
      | mk l =>
        obtain ⟨l2, h2⟩ := mergeLoop_mk g.entries l g
        simp [GoMap.merge, GoMap.mergeS, h2]
    | inr hg =>
      simp [GoMap.merge, GoMap.mergeS, hg, mergeLoop]

/-- C8 witness: nil event metadata merged with the one-entry global map
`{"a":1}` panics, and the merge of `{}` (non-nil) with the same global map
completes. -/
theorem merge_nil_totality_witness :
    GoMap.merge (GoMap.nil : GoMap Int) (GoMap.mk [("a", (1:Int))]) = none ∧
      (GoMap.merge (GoMap.mk ([] : Entries Int))
        (GoMap.mk [("a", (1:Int))])).isSome := by
  constructor
  · exact (merge_nil_totality GoMap.nil (GoMap.mk [("a", 1)])).1 (by decide)
  · exact (merge_nil_totality (GoMap.mk []) (GoMap.mk [("a", 1)])).2.mpr
      (Or.inl (by decide))

/-- C10: the merge loop never modifies the global map `g`: the final state
of `g` is `g` itself, entry for entry, value for value. -/
theorem merge_frame (m g : GoMap α) (st : GoMap α × GoMap α)
    (h : m.mergeS g = some st) :
    st.2 = g ∧ st.2.entries = g.entries ∧ ∀ k, st.2.lookup k = g.lookup k := by
  have h2 := mergeLoop_snd g.entries (m, g) st h
  exact ⟨h2, by rw [h2], fun k => by rw [h2]⟩

/-- C10 witness: after merging `{"a":1}` with global `{"b":2}`, the global
map's state is unchanged. -/
theorem merge_frame_witness :
    ((GoMap.mk [("a", (1:Int)), ("b", 2)], GoMap.mk [("b", (2:Int))]) :
        GoMap Int × GoMap Int).2 = GoMap.mk [("b", (2:Int))] :=
  (merge_frame (GoMap.mk [("a", 1)]) (GoMap.mk [("b", 2)]) _ (by rfl)).1

/-- C1: `GetLimit` returns 10 for any requested limit `<= 0`, caps any
limit `> 1000` at 1000, and returns the requested limit unchanged
otherwise; in particular the five table cases of the test. -/
theorem GetLimit_spec (L : Int) :
    (L ≤ 0 → ListRequestParams.GetLimit ⟨L⟩ = 10) ∧
    (1000 < L → ListRequestParams.GetLimit ⟨L⟩ = 1000) ∧
    (0 < L → L ≤ 1000 → ListRequestParams.GetLimit ⟨L⟩ = L) ∧
    ListRequestParams.GetLimit ⟨1⟩ = 1 ∧
    ListRequestParams.GetLimit ⟨-1⟩ = 10 ∧
    ListRequestParams.GetLimit ⟨0⟩ = 10 ∧
    ListRequestParams.GetLimit ⟨1001⟩ = 1000 ∧
    ListRequestParams.GetLimit ⟨100⟩ = 100 := by
  refine ⟨?_, ?_, ?_, by decide, by decide, by decide, by decide, by decide⟩ <;>
    intro h <;> simp only [ListRequestParams.GetLimit] <;>
    split_ifs <;> omega

/-- C1 witness: the three guarded clauses applied at -7, 2500 and 500. -/
theorem GetLimit_spec_witness :
    ListRequestParams.GetLimit ⟨-7⟩ = 10 ∧
      ListRequestParams.GetLimit ⟨2500⟩ = 1000 ∧
      ListRequestParams.GetLimit ⟨500⟩ = 500 :=
  ⟨(GetLimit_spec (-7)).1 (by decide),
   (GetLimit_spec 2500).2.1 (by decide),
   (GetLimit_spec 500).2.2.1 (by decide) (by decide)⟩

/-- C4: `defaultTime` maps the zero timestamp to the current time converted
to UTC (same instant, location UTC) and returns any non-zero timestamp
exactly as given, with no timezone conversion. -/
theorem defaultTime_spec (now t : GoTime) :
    (t = GoTime.zero →
      defaultTime now t = now.utc ∧ (defaultTime now t).loc = some "UTC" ∧
        (defaultTime now t).wall = now.wall ∧
        (defaultTime now t).ext = now.ext) ∧
    (t ≠ GoTime.zero → defaultTime now t = t) := by
  constructor
  · intro h
    subst h
    simp [defaultTime, GoTime.utc]
  · intro h
    simp [defaultTime, h]

/-- C4 witness: a local now of `⟨5, 7, Local⟩` replaces the zero timestamp
by `⟨5, 7, UTC⟩`, and the non-zero timestamp `⟨1, 2, CET⟩` is untouched. -/
theorem defaultTime_spec_witness :
    defaultTime ⟨5, 7, some "Local"⟩ GoTime.zero = ⟨5, 7, some "UTC"⟩ ∧
      defaultTime ⟨5, 7, some "Local"⟩ ⟨1, 2, some "CET"⟩ = ⟨1, 2, some "CET"⟩ :=
  ⟨((defaultTime_spec ⟨5, 7, some "Local"⟩ GoTime.zero).1 rfl).1,
   (defaultTime_spec ⟨5, 7, some "Local"⟩ ⟨1, 2, some "CET"⟩).2 (by decide)⟩

/-- C3: `validate` rejects a metadata map exactly when it has more than 50
entries or contains a key longer than 40 (`len` counts UTF-8 bytes, which
coincides with characters for the ASCII keys of the concrete cases): a
51-key map fails with the too-many-keys error, a 41-character key fails
with the key-too-long error, and 50 keys of length at most 40 pass. -/
theorem validate_spec :
    (∀ (α : Type) (m : GoMap α),
      (∃ err, m.validate = .error err) ↔
        (50 < m.entries.length ∨ ∃ kv ∈ m.entries, 40 < kv.1.utf8ByteSize)) ∧
    (GoMap.mk ((List.range 51).map fun i => (toString i, (0:Int)))).validate
        = .error .tooMuchMetadataKeys ∧
    (GoMap.mk [(String.mk (List.replicate 41 'a'), (0:Int))]).validate
        = .error (.metadataKeyTooLong (String.mk (List.replicate 41 'a')) 41) ∧
    (GoMap.mk ((List.range 50).map fun i => (toString i, (0:Int)))).validate
        = .ok () := by
  refine ⟨?_, by rfl, by rfl, by rfl⟩
  intro β m
  unfold GoMap.validate
  by_cases hlen : m.entries.length > 50
  · simp [hlen]
  · rw [if_neg hlen]
    cases hf : m.entries.find? (fun kv => decide (40 < kv.1.utf8ByteSize)) with
    | some kv =>
      simp only [hf]
      constructor
      · intro _
        exact Or.inr ⟨kv, List.mem_of_find?_eq_some hf,
          by simpa using List.find?_some hf⟩
      · intro _
        exact ⟨_, rfl⟩
    | none =>
      simp only [hf]
      constructor
      · rintro ⟨err, herr⟩
        simp at herr
      · rintro (h | ⟨kv, hmem, hkv⟩)
        · omega
        · have := List.find?_eq_none.mp hf kv hmem
          simp at this
          omega

/-- C7: whenever `validate` returns the key-too-long error, the error
carries an offending key of the map together with that key's length
(greater than 40), and its rendered message contains the key and the
length. -/
theorem keyTooLong_error_spec (m : GoMap α) (k : String) (l : Nat)
    (h : m.validate = .error (.metadataKeyTooLong k l)) :
    (∃ v, (k, v) ∈ m.entries) ∧ l = k.utf8ByteSize ∧ 40 < l ∧
      (∃ pre post,
        (AuditlogError.metadataKeyTooLong k l).message = pre ++ k ++ post) ∧
      (∃ pre,
        (AuditlogError.metadataKeyTooLong k l).message = pre ++ toString l) := by
  unfold GoMap.validate at h
  by_cases hlen : m.entries.length > 50
  · rw [if_pos hlen] at h
    simp at h
  · rw [if_neg hlen] at h
    cases hf : m.entries.find? (fun kv => decide (40 < kv.1.utf8ByteSize)) with
    | none =>
      rw [hf] at h
      simp at h
    | some kv =>
      rw [hf] at h
      obtain ⟨k1, v1⟩ := kv
      have hpred := List.find?_some hf
      have hmem := List.mem_of_find?_eq_some hf
      simp only [Except.error.injEq, AuditlogError.metadataKeyTooLong.injEq] at h
      obtain ⟨hk, hl⟩ := h
      subst hk
      simp only [decide_eq_true_eq] at hpred
      refine ⟨⟨v1, hmem⟩, hl.symm, by omega, ?_, ?_⟩
      · exact ⟨"metadata key \"", "\" exceed 40 characters: " ++ toString l,
          by simp [AuditlogError.message, String.append_assoc]⟩
      · exact ⟨"metadata key \"" ++ k1 ++ "\" exceed 40 characters: ",
          by simp [AuditlogError.message, String.append_assoc]⟩

/-- C7 witness: a single 41-byte key `aaa…a` yields the key-too-long error
carrying that key and the length 41, both present in the message. -/
theorem keyTooLong_error_spec_witness :
    (∃ v : Int, (String.mk (List.replicate 41 'a'), v) ∈
        (GoMap.mk [(String.mk (List.replicate 41 'a'), (0:Int))]).entries) ∧
      41 = (String.mk (List.replicate 41 'a')).utf8ByteSize ∧ 40 < 41 ∧
      (∃ pre post,
        (AuditlogError.metadataKeyTooLong (String.mk (List.replicate 41 'a'))
            41).message = pre ++ String.mk (List.replicate 41 'a') ++ post) ∧
      (∃ pre,
        (AuditlogError.metadataKeyTooLong (String.mk (List.replicate 41 'a'))
            41).message = pre ++ toString 41) :=
  keyTooLong_error_spec (GoMap.mk [(String.mk (List.replicate 41 'a'), 0)])
    (String.mk (List.replicate 41 'a')) 41 (by rfl)

/-- C9: the key-length check of `validate` measures UTF-8 bytes, not
characters: any map (within the 50-entry limit) containing a key of more
than 40 bytes is rejected with a key-too-long error, and the 21-character
but 42-byte key `ééé…é` concretely triggers it. -/
theorem validate_counts_bytes :
    (∀ (α : Type) (m : GoMap α) (k : String) (v : α),
      (k, v) ∈ m.entries → 40 < k.utf8ByteSize → m.entries.length ≤ 50 →
      ∃ k2 l2, m.validate = .error (.metadataKeyTooLong k2 l2) ∧
        l2 = k2.utf8ByteSize ∧ 40 < l2) ∧
    "ééééééééééééééééééééé".length = 21 ∧
    "ééééééééééééééééééééé".utf8ByteSize = 42 ∧
    (GoMap.mk [("ééééééééééééééééééééé", (0:Int))]).validate
      = .error (.metadataKeyTooLong "ééééééééééééééééééééé" 42) := by
  refine ⟨?_, by decide, by decide, by rfl⟩
  intro β m k v hmem hlong hlen
  unfold GoMap.validate
  rw [if_neg (by omega)]
  cases hf : m.entries.find? (fun kv => decide (40 < kv.1.utf8ByteSize)) with
  | none =>
    have := List.find?_eq_none.mp hf (k, v) hmem
    simp at this
    omega
  | some kv =>
    have hpred := List.find?_some hf
    simp only [decide_eq_true_eq] at hpred
    exact ⟨kv.1, kv.1.utf8ByteSize, rfl, rfl, hpred⟩

/-- C9 witness: the general clause applied to the singleton map whose key
is 21 characters but 42 bytes long. -/
theorem validate_counts_bytes_witness :
    ∃ k2 l2, (GoMap.mk [("ééééééééééééééééééééé", (0:Int))]).validate
        = .error (.metadataKeyTooLong k2 l2) ∧ l2 = k2.utf8ByteSize ∧
        40 < l2 :=
  validate_counts_bytes.1 Int (GoMap.mk [("ééééééééééééééééééééé", 0)])
    "ééééééééééééééééééééé" 0 (by simp [GoMap.entries]) (by decide) (by decide)

theorem uuid_hex_nibbles : ∀ b : Nat, b < 256 →
    isHexChar (hexChar (b / 16)) = true ∧ isHexChar (hexChar (b % 16)) = true := by
  decide

theorem uuid_version_nibbles : ∀ b : Nat, b < 256 →
    (hexChar (((b &&& 15) ||| 64) / 16) == '4') = true ∧
      isHexChar (hexChar (((b &&& 15) ||| 64) / 16)) = true ∧
      isHexChar (hexChar (((b &&& 15) ||| 64) % 16)) = true := by
  decide

theorem uuid_variant_nibbles : ∀ b : Nat, b < 256 →
    ((hexChar (((b &&& 63) ||| 128) / 16) == '8' ||
      hexChar (((b &&& 63) ||| 128) / 16) == '9' ||
      hexChar (((b &&& 63) ||| 128) / 16) == 'a' ||
      hexChar (((b &&& 63) ||| 128) / 16) == 'b') = true) ∧
      isHexChar (hexChar (((b &&& 63) ||| 128) / 16)) = true ∧
      isHexChar (hexChar (((b &&& 63) ||| 128) % 16)) = true := by
  decide

/-- C5: `defaultIdempotencyKey` keeps any non-empty key unchanged; on the
empty key it returns, for every draw of 16 random bytes, a non-empty string
in standard version-4 UUID textual representation. -/
theorem defaultIdempotencyKey_spec
    (b0 b1 b2 b3 b4 b5 b6 b7 b8 b9 b10 b11 b12 b13 b14 b15 : Nat)
    (h0 : b0 < 256) (h1 : b1 < 256) (h2 : b2 < 256) (h3 : b3 < 256)
    (h4 : b4 < 256) (h5 : b5 < 256) (h6 : b6 < 256) (h7 : b7 < 256)
    (h8 : b8 < 256) (h9 : b9 < 256) (h10 : b10 < 256) (h11 : b11 < 256)
    (h12 : b12 < 256) (h13 : b13 < 256) (h14 : b14 < 256) (h15 : b15 < 256)
    (key : String) :
    (key ≠ "" → defaultIdempotencyKey
        [b0, b1, b2, b3, b4, b5, b6, b7, b8, b9, b10, b11, b12, b13, b14, b15]
        key = key) ∧
    (key = "" →
      defaultIdempotencyKey
          [b0, b1, b2, b3, b4, b5, b6, b7, b8, b9, b10, b11, b12, b13, b14,
            b15] key ≠ "" ∧
        isUUIDv4String (defaultIdempotencyKey
          [b0, b1, b2, b3, b4, b5, b6, b7, b8, b9, b10, b11, b12, b13, b14,
            b15] key) = true) := by
  constructor
  · intro hk
    simp [defaultIdempotencyKey, hk]
  · intro hk
    subst hk
    simp only [defaultIdempotencyKey, if_pos rfl]
    obtain ⟨x0, y0⟩ := uuid_hex_nibbles b0 h0
    obtain ⟨x1, y1⟩ := uuid_hex_nibbles b1 h1
    obtain ⟨x2, y2⟩ := uuid_hex_nibbles b2 h2
    obtain ⟨x3, y3⟩ := uuid_hex_nibbles b3 h3
    obtain ⟨x4, y4⟩ := uuid_hex_nibbles b4 h4
    obtain ⟨x5, y5⟩ := uuid_hex_nibbles b5 h5
    obtain ⟨x7, y7⟩ := uuid_hex_nibbles b7 h7
    obtain ⟨x9, y9⟩ := uuid_hex_nibbles b9 h9
    obtain ⟨x10, y10⟩ := uuid_hex_nibbles b10 h10
    obtain ⟨x11, y11⟩ := uuid_hex_nibbles b11 h11
    obtain ⟨x12, y12⟩ := uuid_hex_nibbles b12 h12
    obtain ⟨x13, y13⟩ := uuid_hex_nibbles b13 h13
    obtain ⟨x14, y14⟩ := uuid_hex_nibbles b14 h14
    obtain ⟨x15, y15⟩ := uuid_hex_nibbles b15 h15
    obtain ⟨v1, v2, v3⟩ := uuid_version_nibbles b6 h6
    obtain ⟨w1, w2, w3⟩ := uuid_variant_nibbles b8 h8
    constructor
    · intro habs
      have hd : hexChar (b0 / 16) :: hexChar (b0 % 16) :: hexChar (b1 / 16) ::
          hexChar (b1 % 16) :: hexChar (b2 / 16) :: hexChar (b2 % 16) ::
          hexChar (b3 / 16) :: hexChar (b3 % 16) :: '-' ::
          hexChar (b4 / 16) :: hexChar (b4 % 16) :: hexChar (b5 / 16) ::
          hexChar (b5 % 16) :: '-' ::
          hexChar (((b6 &&& 15) ||| 64) / 16) ::
          hexChar (((b6 &&& 15) ||| 64) % 16) ::
          hexChar (b7 / 16) :: hexChar (b7 % 16) :: '-' ::
          hexChar (((b8 &&& 63) ||| 128) / 16) ::
          hexChar (((b8 &&& 63) ||| 128) % 16) ::
          hexChar (b9 / 16) :: hexChar (b9 % 16) :: '-' ::
          hexChar (b10 / 16) :: hexChar (b10 % 16) :: hexChar (b11 / 16) ::
          hexChar (b11 % 16) :: hexChar (b12 / 16) :: hexChar (b12 % 16) ::
          hexChar (b13 / 16) :: hexChar (b13 % 16) :: hexChar (b14 / 16) ::
          hexChar (b14 % 16) :: hexChar (b15 / 16) :: hexChar (b15 % 16) ::
          ([] : List Char) = ([] : List Char) := congrArg String.data habs
      exact List.noConfusion hd
    · show isUUIDv4Chars
        (hexChar (b0 / 16) :: hexChar (b0 % 16) :: hexChar (b1 / 16) ::
          hexChar (b1 % 16) :: hexChar (b2 / 16) :: hexChar (b2 % 16) ::
          hexChar (b3 / 16) :: hexChar (b3 % 16) :: '-' ::
          hexChar (b4 / 16) :: hexChar (b4 % 16) :: hexChar (b5 / 16) ::
          hexChar (b5 % 16) :: '-' ::
          hexChar (((b6 &&& 15) ||| 64) / 16) ::
          hexChar (((b6 &&& 15) ||| 64) % 16) ::
          hexChar (b7 / 16) :: hexChar (b7 % 16) :: '-' ::
          hexChar (((b8 &&& 63) ||| 128) / 16) ::
          hexChar (((b8 &&& 63) ||| 128) % 16) ::
          hexChar (b9 / 16) :: hexChar (b9 % 16) :: '-' ::
          hexChar (b10 / 16) :: hexChar (b10 % 16) :: hexChar (b11 / 16) ::
          hexChar (b11 % 16) :: hexChar (b12 / 16) :: hexChar (b12 % 16) ::
          hexChar (b13 / 16) :: hexChar (b13 % 16) :: hexChar (b14 / 16) ::
          hexChar (b14 % 16) :: hexChar (b15 / 16) :: hexChar (b15 % 16) ::
          ([] : List Char)) = true
      simp only [isUUIDv4Chars]
      simp [x0, y0, x1, y1, x2, y2, x3, y3, x4, y4, x5, y5, x7, y7, x9, y9,
        x10, y10, x11, y11, x12, y12, x13, y13, x14, y14, x15, y15,
        v1, v2, v3, w1, w2, w3]

/-- C5 witness: with zero random bytes the empty key becomes the well-formed
UUID `00000000-0000-4000-8000-000000000000`, and the key `"abc"` is kept. -/
theorem defaultIdempotencyKey_spec_witness :
    defaultIdempotencyKey [0, 0, 0, 0, 0, 0, 0, 0, 0, 0, 0, 0, 0, 0, 0, 0]
        "abc" = "abc" ∧
      defaultIdempotencyKey [0, 0, 0, 0, 0, 0, 0, 0, 0, 0, 0, 0, 0, 0, 0, 0]
          "" ≠ "" ∧
      isUUIDv4String (defaultIdempotencyKey
        [0, 0, 0, 0, 0, 0, 0, 0, 0, 0, 0, 0, 0, 0, 0, 0] "") = true := by
  have h := defaultIdempotencyKey_spec 0 0 0 0 0 0 0 0 0 0 0 0 0 0 0 0
    (by decide) (by decide) (by decide) (by decide) (by decide) (by decide)
    (by decide) (by decide) (by decide) (by decide) (by decide) (by decide)
    (by decide) (by decide) (by decide) (by decide)
  exact ⟨(h "abc").1 (by decide), ((h "").2 rfl).1, ((h "").2 rfl).2⟩

/-- C6: preparing an event that already has a non-zero timestamp, a
non-empty idempotency key and metadata passing validation, with empty
global metadata, returns the event unchanged and no error. -/
theorem prepare_roundtrip (now : GoTime) (rb : List Nat) (g : GoMap α)
    (e : Event α) (ht : e.OccurredAt ≠ GoTime.zero)
    (hk : e.IdempotencyKey ≠ "") (hv : e.Metadata.validate = .ok ())
    (hg : g.entries = []) :
    prepare now rb g e = some (.ok e) := by
  have h1 : defaultTime now e.OccurredAt = e.OccurredAt := if_neg ht
  have h2 : defaultIdempotencyKey rb e.IdempotencyKey = e.IdempotencyKey :=
    if_neg hk
  simp only [prepare, GoMap.merge, GoMap.mergeS, h1, h2]
  rw [hg]
  simp only [mergeLoop, Option.map_some']
  rw [hv]

/-- C6 witness: a fully-populated concrete event passes through `prepare`
with nil global metadata untouched. -/
theorem prepare_roundtrip_witness :
    prepare ⟨9, 9, some "Local"⟩ [] (GoMap.nil : GoMap Int)
        ⟨"document.viewed", "C", "actor", "user_1", "grp", "idem-1",
          "1.2.3.4", GoMap.mk [("a", 1)], ⟨3, 4, some "UTC"⟩, "target",
          "doc_1"⟩
      = some (.ok ⟨"document.viewed", "C", "actor", "user_1", "grp",
          "idem-1", "1.2.3.4", GoMap.mk [("a", 1)], ⟨3, 4, some "UTC"⟩,
          "target", "doc_1"⟩) :=
  prepare_roundtrip ⟨9, 9, some "Local"⟩ [] GoMap.nil _ (by decide)
    (by decide) (by rfl) (by rfl)

end Auditlog
